import Mathlib

/-!
# varmomapo: the tile handler

A shallow embedding of `pkg/tileHandler/handler.go` (the pattern `urlRegex`
and the method `server.ServeHTTP`) together with the parts of the Go standard
library it calls (`regexp`, `strconv.Atoi`, `net/http`'s response writer), and
the properties of the request routing that follow from the code.

Paths and sub-matches are lists of characters. Go's `int` is the 64-bit
signed integer of the build target. The handler reads nothing of the request
but `r.URL.Path`; its log records and the context it hands to `Draw` are left
out. What a request does is recorded as the list of calls it makes to the
drawer factory, the drawer and the encoder, and the state of the response
writer it leaves behind.
-/

set_option autoImplicit false

namespace Varmomapo

/-! ## Regular expressions (package `regexp`) -/

/-- The fragment of Go regular expressions that `urlRegex` is written in.
Repetition is applied to character classes only, and is greedy. -/
inductive Regexp where
  /-- Matches at the beginning of the text: `\A`. -/
  | beginText : Regexp
  /-- Matches at the end of the text: `\z`. -/
  | endText : Regexp
  /-- One literal character. -/
  | lit (c : Char) : Regexp
  /-- Greedy repetition, zero or more times, of a character class: `[..]*`. -/
  | star (p : Char → Bool) : Regexp
  /-- Greedy repetition, one or more times, of a character class: `[..]+`. -/
  | plus (p : Char → Bool) : Regexp
  /-- Concatenation. -/
  | cat (a b : Regexp) : Regexp
  /-- Alternation, the left branch preferred. -/
  | alt (a b : Regexp) : Regexp
  /-- Capturing group number `i`. -/
  | cap (i : Nat) (r : Regexp) : Regexp

/-- A position of the matcher in the text: the number of characters already
consumed, the rest of the text, and the groups captured so far. -/
structure MState where
  pos : Nat
  rest : List Char
  caps : List (Nat × List Char)

/-- Every way of consuming a run of characters of class `p`, the longest
first. -/
def starRun (p : Char → Bool) (caps : List (Nat × List Char)) :
    Nat → List Char → List MState
  | pos, [] => [⟨pos, [], caps⟩]
  | pos, c :: t =>
    (if p c then starRun p caps (pos + 1) t else []) ++ [⟨pos, c :: t, caps⟩]

/-- The backtracking search of the matcher: all the ways in which `r` matches
at state `s`, in the order in which the search finds them (leftmost-first:
greedy repetitions try the longest run first, alternations the left branch
first). -/
def Regexp.run : Regexp → MState → List MState
  | .beginText, s => if s.pos = 0 then [s] else []
  | .endText, s => if s.rest.isEmpty then [s] else []
  | .lit c, s =>
    match s.rest with
    | [] => []
    | d :: t => if d = c then [⟨s.pos + 1, t, s.caps⟩] else []
  | .star p, s => starRun p s.caps s.pos s.rest
  | .plus p, s =>
    match s.rest with
    | [] => []
    | d :: t => if p d then starRun p s.caps (s.pos + 1) t else []
  | .cat a b, s => (a.run s).flatMap fun m => b.run m
  | .alt a b, s => a.run s ++ b.run s
  | .cap i r, s =>
    (r.run s).map fun m => ⟨m.pos, m.rest, (i, s.rest.take (m.pos - s.pos)) :: m.caps⟩

/-- The number of capturing groups of the expression: `NumSubexp`. -/
def Regexp.NumSubexp : Regexp → Nat
  | .cat a b => max a.NumSubexp b.NumSubexp
  | .alt a b => max a.NumSubexp b.NumSubexp
  | .cap i r => max i r.NumSubexp
  | _ => 0

/-- The text of group `i` in a list of captures; the empty text when the
group took no part in the match. -/
def capture (caps : List (Nat × List Char)) (i : Nat) : List Char :=
  match caps.find? fun e => e.1 == i with
  | some e => e.2
  | none => []

/-- The leftmost match: the search is started at every position of the text in
turn, and the first start with a match wins. The result is the start position
with the final state of the first match found there. -/
def Regexp.search (re : Regexp) : Nat → List Char → Option (Nat × MState)
  | pos, [] =>
    match (re.run ⟨pos, [], []⟩).head? with
    | some m => some (pos, m)
    | none => none
  | pos, c :: t =>
    match (re.run ⟨pos, c :: t, []⟩).head? with
    | some m => some (pos, m)
    | none => re.search (pos + 1) t

/-- Go's `(*Regexp).FindStringSubmatch`: the text of the leftmost match
followed by the texts of its capturing groups, or `none` (Go's `nil`) when the
expression matches nowhere. -/
def Regexp.FindStringSubmatch (re : Regexp) (s : List Char) : Option (List (List Char)) :=
  match re.search 0 s with
  | none => none
  | some (start, m) =>
    some (((s.drop start).take (m.pos - start)) ::
      (List.range re.NumSubexp).map fun i => capture m.caps (i + 1))

/-- The class `.`: every character but the line feed. -/
def anyCharNotNL (c : Char) : Bool := c != '\n'

/-- The class `\d`: the ASCII digits. -/
def digit (c : Char) : Bool := '0' ≤ c && c ≤ '9'

/-- The class `\w`: the ASCII letters, the ASCII digits and the underscore. -/
def wordChar (c : Char) : Bool :=
  digit c || ('A' ≤ c && c ≤ 'Z') || c == '_' || ('a' ≤ c && c ≤ 'z')

/-- The pattern of the handler:
`\A/.*/(\w+)/(\d+)/(\d+)/(\d+)\.(png|jpeg)\z`. -/
def urlRegex : Regexp :=
  .cat .beginText <| .cat (.lit '/') <| .cat (.star anyCharNotNL) <| .cat (.lit '/') <|
  .cat (.cap 1 (.plus wordChar)) <| .cat (.lit '/') <|
  .cat (.cap 2 (.plus digit)) <| .cat (.lit '/') <|
  .cat (.cap 3 (.plus digit)) <| .cat (.lit '/') <|
  .cat (.cap 4 (.plus digit)) <| .cat (.lit '.') <|
  .cat (.cap 5 (.alt (.cat (.lit 'p') (.cat (.lit 'n') (.lit 'g')))
                     (.cat (.lit 'j') (.cat (.lit 'p') (.cat (.lit 'e') (.lit 'g')))))) <|
  .endText

/-! ## Integer decoding (package `strconv`) -/

/-- The size in bits of Go's `int`. -/
def intSize : Nat := 64

/-- The number a text denotes when read as decimal digits, most significant
digit first. -/
def decimalValue (s : List Char) : Nat :=
  s.foldl (fun n c => 10 * n + (c.toNat - '0'.toNat)) 0

/-- Go's `strconv.Atoi`, as far as the handler observes it: the value, or
`none` when Go returns a non-nil error. The text is an optional sign followed
by one or more ASCII digits (anything else is a syntax error), and the number
must fit a signed integer of `intSize` bits (otherwise a range error). -/
def Atoi (s : List Char) : Option Int :=
  let neg := s.head? == some '-'
  let ds := if s.head? == some '-' || s.head? == some '+' then s.tail else s
  if ds.isEmpty || !ds.all digit then none
  else if neg then
    if decimalValue ds > 2 ^ (intSize - 1) then none else some (-(decimalValue ds : Int))
  else
    if decimalValue ds ≥ 2 ^ (intSize - 1) then none else some (decimalValue ds : Int)

/-! ## The response (package `net/http`) -/

/-- A byte of a response body. -/
abbrev Byte := Nat

/-- The bytes of an ASCII text. -/
def bytesOf (s : String) : List Byte := s.toList.map Char.toNat

/-- What an `http.ResponseWriter` has sent: the status code, once the header
is written, the `Content-Type` it went out with when the handler set one, and
the body written so far. -/
structure ResponseWriter where
  status : Option Nat
  contentType : Option String
  body : List Byte
  deriving DecidableEq

/-- The writer a handler receives: nothing is sent yet. -/
def ResponseWriter.fresh : ResponseWriter := ⟨none, none, []⟩

/-- The effect of `w.WriteHeader(code)`: the first call sends the header, later calls are
ignored. -/
def ResponseWriter.WriteHeader (w : ResponseWriter) (code : Nat) : ResponseWriter :=
  if w.status.isSome then w else { w with status := some code }

/-- The effect of `w.Write(bs)`: the header goes out with status 200 if it has
not been written, then the bytes are appended to the body. -/
def ResponseWriter.Write (w : ResponseWriter) (bs : List Byte) : ResponseWriter :=
  let w1 := w.WriteHeader 200
  { w1 with body := w1.body ++ bs }

/-- A sequence of calls of `w.Write`, one for each chunk. -/
def ResponseWriter.WriteAll (w : ResponseWriter) (chunks : List (List Byte)) : ResponseWriter :=
  chunks.foldl ResponseWriter.Write w

/-- The status code the client receives: 200 when the handler returned
without writing a header. -/
def ResponseWriter.statusCode (w : ResponseWriter) : Nat := w.status.getD 200

/-- Go's `http.Error`: a plain-text content type, the status code, and the
message followed by a line feed. -/
def ResponseWriter.Error (w : ResponseWriter) (error : String) (code : Nat) : ResponseWriter :=
  let w1 := if w.status.isSome then w
    else { w with contentType := some "text/plain; charset=utf-8" }
  (w1.WriteHeader code).Write (bytesOf (error ++ "\n"))

/-- Go's `http.NotFound`. -/
def ResponseWriter.NotFound (w : ResponseWriter) : ResponseWriter :=
  w.Error "404 page not found" 404

def StatusBadRequest : Nat := 400
def StatusInternalServerError : Nat := 500

/-- An image encoder writing to the response, such as `png.Encode(w, img)`:
the chunks it passed to `w.Write`, in order, and the error it returned, if
any. -/
abbrev Encoder (Img Err : Type) := Img → List (List Byte) × Option Err

/-! ## Drawers (`pkg/drawers/drawer.go`) -/

/-- The interface `drawers.Drawer`: `Draw` returns an image or an error. -/
structure Drawer (Img Err : Type) where
  Draw : (x y level : Int) → Except Err Img

/-! ## The handler (`pkg/tileHandler/handler.go`) -/

/-- The calls a request makes to the collaborators of the handler, in the
order in which they are made. -/
inductive Call (Img Err : Type) where
  | drawerFactory (layerName : List Char) : Call Img Err
  | Draw (drawer : Drawer Img Err) (x y level : Int) : Call Img Err
  | pngEncode (img : Img) : Call Img Err

/-- What serving one request did: the collaborator calls and the response. -/
structure Outcome (Img Err : Type) where
  calls : List (Call Img Err)
  w : ResponseWriter

/-- The type `server`: the drawer factory returns the drawer of a layer, or
`none` (Go's `nil`) when it has none. -/
structure server (Img Err : Type) where
  drawerFactory : (layerName : List Char) → Option (Drawer Img Err)

/-- The method `ServeHTTP`, on the request path `path`. The encoder
`png.Encode` is a parameter. The log records are not part of the model. -/
def server.ServeHTTP {Img Err : Type} (s : server Img Err)
    (pngEncode : Encoder Img Err) (path : List Char) : Outcome Img Err :=
  let w := ResponseWriter.fresh
  match urlRegex.FindStringSubmatch path with
  | none => ⟨[], w.NotFound⟩
  | some m =>
    if m.length ≠ 6 then ⟨[], w.NotFound⟩
    else
      let layerName := m.getD 1 []
      match s.drawerFactory layerName with
      | none => ⟨[.drawerFactory layerName], w.NotFound⟩
      | some drawer =>
        match Atoi (m.getD 2 []) with
        | none => ⟨[.drawerFactory layerName], w.Error "level decoding failed" StatusBadRequest⟩
        | some level =>
          match Atoi (m.getD 3 []) with
          | none => ⟨[.drawerFactory layerName], w.Error "x decoding failed" StatusBadRequest⟩
          | some x =>
            match Atoi (m.getD 4 []) with
            | none => ⟨[.drawerFactory layerName], w.Error "y decoding failed" StatusBadRequest⟩
            | some y =>
              match drawer.Draw x y level with
              | .error _ =>
                ⟨[.drawerFactory layerName, .Draw drawer x y level],
                  w.Error "tile generation failed" StatusInternalServerError⟩
              | .ok img =>
                let w1 := w.WriteAll (pngEncode img).1
                match (pngEncode img).2 with
                | some _ =>
                  ⟨[.drawerFactory layerName, .Draw drawer x y level, .pngEncode img],
                    w1.Error "tile encoding failed" StatusInternalServerError⟩
                | none =>
                  ⟨[.drawerFactory layerName, .Draw drawer x y level, .pngEncode img], w1⟩

/-! ## Path segments -/

/-- The segments of a path: the texts between its slashes. -/
def segments : List Char → List (List Char)
  | [] => [[]]
  | c :: t =>
    if c = '/' then [] :: segments t
    else
      match segments t with
      | [] => [[c]]
      | seg :: segs => (c :: seg) :: segs

/-- The segment of a path that is `k` places before its last one (`k = 0`
is the last segment); empty when the path has no such segment. -/
def segmentFromLast (path : List Char) (k : Nat) : List Char :=
  (segments path).reverse.getD k []

/-- A file name without its extension: the text before its first dot. -/
def stripExtension (seg : List Char) : List Char := seg.takeWhile fun c => c != '.'

/-- The extension of a file name: the text after its first dot. -/
def extension (seg : List Char) : List Char := (seg.dropWhile fun c => c != '.').tail

/-- The layer segment of a path: the fourth from last. -/
def layerSegment (path : List Char) : List Char := segmentFromLast path 3

/-- The level segment of a path: the third from last. -/
def levelSegment (path : List Char) : List Char := segmentFromLast path 2

/-- The x segment of a path: the second from last. -/
def xSegment (path : List Char) : List Char := segmentFromLast path 1

/-- The y segment of a path: the last one, without its extension. -/
def ySegment (path : List Char) : List Char := stripExtension (segmentFromLast path 0)

/-- The extension of the last segment of a path. -/
def extSegment (path : List Char) : List Char := extension (segmentFromLast path 0)

/-! ## The tile-address grammar -/

/-- The fields of a tile address are well formed: the layer is one or more
word characters, the level, x and y are one or more digits each, and the
extension is `png` or `jpeg`. -/
def TileFields (layer level x y ext : List Char) : Prop :=
  (layer ≠ [] ∧ layer.all wordChar = true) ∧ (level ≠ [] ∧ level.all digit = true) ∧
  (x ≠ [] ∧ x.all digit = true) ∧ (y ≠ [] ∧ y.all digit = true) ∧
  (ext = ['p', 'n', 'g'] ∨ ext = ['j', 'p', 'e', 'g'])

/-- The grammar as the specification words it: the path ends with
`/<layer>/<level>/<x>/<y>.<ext>`, whatever precedes. -/
def EndsWithTileAddress (path : List Char) : Prop :=
  ∃ pre layer level x y ext, TileFields layer level x y ext ∧
    path = pre ++ '/' :: layer ++ '/' :: level ++ '/' :: x ++ '/' :: y ++ '.' :: ext

/-- The grammar of `urlRegex`: a slash, any text without a line feed, and
then `/<layer>/<level>/<x>/<y>.<ext>`. -/
def TileAddressPath (path : List Char) : Prop :=
  ∃ pre layer level x y ext, TileFields layer level x y ext ∧ pre.all anyCharNotNL = true ∧
    path = '/' :: pre ++ '/' :: layer ++ '/' :: level ++ '/' :: x ++ '/' :: y ++ '.' :: ext

/-- The test `m == nil || len(m) != 6` of the handler: it takes the branch
`Invalid URL` on the path. -/
def invalidURL (path : List Char) : Bool :=
  match urlRegex.FindStringSubmatch path with
  | none => true
  | some m => m.length != 6

/-- A call is a call of `Draw`. -/
def Call.isDraw {Img Err : Type} : Call Img Err → Bool
  | .Draw _ _ _ _ => true
  | _ => false

/-- A call is a call of the drawer factory. -/
def Call.isFactory {Img Err : Type} : Call Img Err → Bool
  | .drawerFactory _ => true
  | _ => false

/-- A call is a call of the PNG encoder. -/
def Call.isEncode {Img Err : Type} : Call Img Err → Bool
  | .pngEncode _ => true
  | _ => false

/-! ## The matcher on `urlRegex` -/

theorem mem_starRun (p : Char → Bool) (caps : List (Nat × List Char)) (rest : List Char) :
    ∀ (pos : Nat) (m : MState), m ∈ starRun p caps pos rest ↔
      ∃ w r, w.all p = true ∧ rest = w ++ r ∧ m = ⟨pos + w.length, r, caps⟩ := by
  induction rest with
  | nil =>
    intro pos m
    simp only [starRun, List.mem_singleton]
    constructor
    · intro h
      exact ⟨[], [], by simp, by simp, by simpa using h⟩
    · rintro ⟨w, r, -, hw, rfl⟩
      have h := List.append_eq_nil.mp hw.symm
      simp [h.1, h.2]
  | cons c t ih =>
    intro pos m
    simp only [starRun, List.mem_append, List.mem_singleton]
    constructor
    · rintro (h | h)
      · split at h
        · rename_i hc
          obtain ⟨w, r, hw, ht, rfl⟩ := (ih _ _).mp h
          refine ⟨c :: w, r, by simp [hc, hw], by simp [ht], ?_⟩
          simp [Nat.add_assoc, Nat.add_comm 1]
        · simp at h
      · exact ⟨[], c :: t, by simp, by simp, by simpa using h⟩
    · rintro ⟨w, r, hw, hr, rfl⟩
      cases w with
      | nil => right; simp at hr; simp [hr]
      | cons d w =>
        left
        simp only [List.cons_append, List.cons.injEq] at hr
        obtain ⟨rfl, rfl⟩ := hr
        simp only [List.all_cons, Bool.and_eq_true] at hw
        rw [if_pos hw.1]
        refine (ih _ _).mpr ⟨w, r, hw.2, rfl, ?_⟩
        simp [Nat.add_assoc, Nat.add_comm 1]

theorem mem_run_lit (c : Char) (s m : MState) :
    m ∈ (Regexp.lit c).run s ↔ ∃ r, s.rest = c :: r ∧ m = ⟨s.pos + 1, r, s.caps⟩ := by
  simp only [Regexp.run]
  cases h : s.rest with
  | nil => simp
  | cons d t =>
    by_cases hd : d = c
    · simp [hd]
    · simp [hd]

theorem mem_run_plus (p : Char → Bool) (s m : MState) :
    m ∈ (Regexp.plus p).run s ↔
      ∃ w r, (w ≠ [] ∧ w.all p = true) ∧ s.rest = w ++ r ∧ m = ⟨s.pos + w.length, r, s.caps⟩ := by
  simp only [Regexp.run]
  cases h : s.rest with
  | nil =>
    simp only [List.not_mem_nil, false_iff]
    rintro ⟨w, r, ⟨hne, -⟩, hr, -⟩
    exact hne (List.append_eq_nil.mp hr.symm).1
  | cons d t =>
    simp only
    constructor
    · intro hm
      split at hm
      · rename_i hd
        obtain ⟨w, r, hw, ht, rfl⟩ := (mem_starRun _ _ _ _ _).mp hm
        refine ⟨d :: w, r, ⟨by simp, by simp [hd, hw]⟩, by simp [ht], ?_⟩
        simp [Nat.add_assoc, Nat.add_comm 1]
      · simp at hm
    · rintro ⟨w, r, ⟨hne, hw⟩, hr, rfl⟩
      cases w with
      | nil => exact absurd rfl hne
      | cons e w =>
        simp only [List.cons_append, List.cons.injEq] at hr
        obtain ⟨rfl, rfl⟩ := hr
        simp only [List.all_cons, Bool.and_eq_true] at hw
        rw [if_pos hw.1]
        refine (mem_starRun _ _ _ _ _).mpr ⟨w, r, hw.2, rfl, ?_⟩
        simp [Nat.add_assoc, Nat.add_comm 1]

theorem mem_run_cap_plus (i : Nat) (p : Char → Bool) (s m : MState) :
    m ∈ (Regexp.cap i (Regexp.plus p)).run s ↔
      ∃ w r, (w ≠ [] ∧ w.all p = true) ∧ s.rest = w ++ r ∧
        m = ⟨s.pos + w.length, r, (i, w) :: s.caps⟩ := by
  simp only [Regexp.run.eq_8, List.mem_map, mem_run_plus]
  constructor
  · rintro ⟨_, ⟨w, r, hw, hr, rfl⟩, rfl⟩
    exact ⟨w, r, hw, hr, by simp [hr]⟩
  · rintro ⟨w, r, hw, hr, rfl⟩
    exact ⟨_, ⟨w, r, hw, hr, rfl⟩, by simp [hr]⟩

theorem mem_run_ext (s m : MState) :
    m ∈ (Regexp.cap 5 (.alt (.cat (.lit 'p') (.cat (.lit 'n') (.lit 'g')))
        (.cat (.lit 'j') (.cat (.lit 'p') (.cat (.lit 'e') (.lit 'g')))))).run s ↔
      ∃ w r, (w = ['p', 'n', 'g'] ∨ w = ['j', 'p', 'e', 'g']) ∧ s.rest = w ++ r ∧
        m = ⟨s.pos + w.length, r, (5, w) :: s.caps⟩ := by
  simp only [Regexp.run.eq_8, Regexp.run.eq_7, Regexp.run.eq_6, List.mem_map, List.mem_append,
    List.mem_flatMap, mem_run_lit]
  constructor
  · rintro ⟨_, (⟨_, ⟨r1, h1, rfl⟩, _, ⟨r2, h2, rfl⟩, r3, h3, rfl⟩ |
      ⟨_, ⟨r1, h1, rfl⟩, _, ⟨r2, h2, rfl⟩, _, ⟨r3, h3, rfl⟩, r4, h4, rfl⟩), rfl⟩
    · simp only at h2 h3
      subst h2 h3
      exact ⟨_, r3, Or.inl rfl, h1, by simp [h1, Nat.add_assoc]⟩
    · simp only at h2 h3 h4
      subst h2 h3 h4
      exact ⟨_, r4, Or.inr rfl, h1, by simp [h1, Nat.add_assoc]⟩
  · rintro ⟨w, r, (rfl | rfl), hr, rfl⟩
    · exact ⟨_, Or.inl ⟨_, ⟨_, hr, rfl⟩, _, ⟨_, rfl, rfl⟩, _, rfl, rfl⟩,
        by simp [hr, Nat.add_assoc]⟩
    · exact ⟨_, Or.inr ⟨_, ⟨_, hr, rfl⟩, _, ⟨_, rfl, rfl⟩, _, ⟨_, rfl, rfl⟩, _, rfl, rfl⟩,
        by simp [hr, Nat.add_assoc]⟩

theorem mem_run_urlRegex (pos : Nat) (path : List Char) (m : MState) :
    m ∈ urlRegex.run ⟨pos, path, []⟩ ↔
      pos = 0 ∧ ∃ pre layer level x y ext, TileFields layer level x y ext ∧
        pre.all anyCharNotNL = true ∧
        path = '/' :: pre ++ '/' :: layer ++ '/' :: level ++ '/' :: x ++ '/' :: y ++ '.' :: ext ∧
        m = ⟨path.length, [], [(5, ext), (4, y), (3, x), (2, level), (1, layer)]⟩ := by
  simp only [urlRegex, Regexp.run.eq_6, List.mem_flatMap, mem_run_lit, mem_run_cap_plus,
    mem_run_ext, Regexp.run.eq_1, Regexp.run.eq_2, Regexp.run.eq_4, mem_starRun]
  constructor
  · rintro ⟨a0, h0, _, ⟨r1, h1, rfl⟩, _, ⟨pre, r2, hpre, h2, rfl⟩, _, ⟨r3, h3, rfl⟩,
      _, ⟨layer, r4, hl, h4, rfl⟩, _, ⟨r5, h5, rfl⟩, _, ⟨level, r6, hv, h6, rfl⟩,
      _, ⟨r7, h7, rfl⟩, _, ⟨x, r8, hx, h8, rfl⟩, _, ⟨r9, h9, rfl⟩, _, ⟨y, r10, hy, h10, rfl⟩,
      _, ⟨r11, h11, rfl⟩, _, ⟨ext, r12, he, h12, rfl⟩, hm⟩
    by_cases hp : pos = 0
    · rw [if_pos hp, List.mem_singleton] at h0
      subst h0 hp
      simp only at h1 h2 h3 h4 h5 h6 h7 h8 h9 h10 h11 h12 hm
      cases r12 with
      | cons c t => simp at hm
      | nil =>
        simp only [List.isEmpty_nil, if_true, List.mem_singleton] at hm
        subst h12 h11 h10 h9 h8 h7 h6 h5 h4 h3 h2 h1
        refine ⟨rfl, pre, layer, level, x, y, ext, ⟨hl, hv, hx, hy, he⟩, hpre, by simp, ?_⟩
        rw [hm]
        simp only [List.length_cons, List.length_append, MState.mk.injEq, and_true, List.length_nil]
        omega
    · rw [if_neg hp] at h0
      simp at h0
  · rintro ⟨rfl, pre, layer, level, x, y, ext, ⟨hl, hv, hx, hy, he⟩, hpre, hpath, hm⟩
    simp only [List.append_assoc, List.cons_append] at hpath
    subst hpath
    subst hm
    refine ⟨⟨0, _, []⟩, by simp, _, ⟨_, rfl, rfl⟩, _, ⟨pre, _, hpre, rfl, rfl⟩, _, ⟨_, rfl, rfl⟩,
      _, ⟨layer, _, hl, rfl, rfl⟩, _, ⟨_, rfl, rfl⟩, _, ⟨level, _, hv, rfl, rfl⟩,
      _, ⟨_, rfl, rfl⟩, _, ⟨x, _, hx, rfl, rfl⟩, _, ⟨_, rfl, rfl⟩, _, ⟨y, _, hy, rfl, rfl⟩,
      _, ⟨ext, rfl, rfl⟩, _, ⟨ext, [], he, by simp, rfl⟩, ?_⟩
    simp only [List.isEmpty_nil, if_true, List.mem_singleton, List.length_cons,
      List.length_append, MState.mk.injEq, and_true, List.length_nil]
    omega

theorem run_urlRegex_of_pos (pos : Nat) (rest : List Char) (h : pos ≠ 0) :
    urlRegex.run ⟨pos, rest, []⟩ = [] := by
  apply List.eq_nil_iff_forall_not_mem.mpr
  intro m hm
  exact h ((mem_run_urlRegex _ _ _).mp hm).1

theorem search_urlRegex_succ (rest : List Char) :
    ∀ pos : Nat, urlRegex.search (pos + 1) rest = none := by
  induction rest with
  | nil => intro pos; simp [Regexp.search, run_urlRegex_of_pos]
  | cons c t ih => intro pos; simp [Regexp.search, run_urlRegex_of_pos, ih]

theorem search_urlRegex_zero (path : List Char) :
    urlRegex.search 0 path = (urlRegex.run ⟨0, path, []⟩).head?.map fun m => (0, m) := by
  cases path with
  | nil => simp only [Regexp.search]; cases (urlRegex.run ⟨0, [], []⟩).head? <;> rfl
  | cons c t =>
    simp only [Regexp.search, search_urlRegex_succ]
    cases (urlRegex.run ⟨0, c :: t, []⟩).head? <;> rfl

theorem FindStringSubmatch_none (path : List Char) (h : ¬ TileAddressPath path) :
    urlRegex.FindStringSubmatch path = none := by
  have hnil : urlRegex.run ⟨0, path, []⟩ = [] := by
    apply List.eq_nil_iff_forall_not_mem.mpr
    intro m hm
    obtain ⟨-, pre, layer, level, x, y, ext, hf, hpre, hpath, -⟩ := (mem_run_urlRegex _ _ _).mp hm
    exact h ⟨pre, layer, level, x, y, ext, hf, hpre, hpath⟩
  simp [Regexp.FindStringSubmatch, search_urlRegex_zero, hnil]

theorem FindStringSubmatch_some (path : List Char) (h : TileAddressPath path) :
    ∃ pre layer level x y ext, TileFields layer level x y ext ∧ pre.all anyCharNotNL = true ∧
      path = '/' :: pre ++ '/' :: layer ++ '/' :: level ++ '/' :: x ++ '/' :: y ++ '.' :: ext ∧
      urlRegex.FindStringSubmatch path = some [path, layer, level, x, y, ext] := by
  obtain ⟨pre0, layer0, level0, x0, y0, ext0, hf0, hpre0, hpath0⟩ := h
  have hmem := (mem_run_urlRegex 0 path _).mpr
    ⟨rfl, pre0, layer0, level0, x0, y0, ext0, hf0, hpre0, hpath0, rfl⟩
  cases hrun : urlRegex.run ⟨0, path, []⟩ with
  | nil => rw [hrun] at hmem; simp at hmem
  | cons m ms =>
    have hm : m ∈ urlRegex.run ⟨0, path, []⟩ := by rw [hrun]; simp
    obtain ⟨-, pre, layer, level, x, y, ext, hf, hpre, hpath, rfl⟩ := (mem_run_urlRegex _ _ _).mp hm
    refine ⟨pre, layer, level, x, y, ext, hf, hpre, hpath, ?_⟩
    have hn : urlRegex.NumSubexp = 5 := by decide
    simp only [Regexp.FindStringSubmatch, search_urlRegex_zero, hrun, List.head?_cons,
      Option.map_some', hn, List.drop_zero, Nat.sub_zero, List.take_length]
    simp [List.range, List.range.loop, capture, List.find?]

/-! ## Segments of a tile address -/

theorem segments_ne_nil (s : List Char) : segments s ≠ [] := by
  cases s with
  | nil => simp [segments]
  | cons c t =>
    simp only [segments]
    split
    · simp
    · split <;> simp

theorem segments_append_slash (a b : List Char) :
    segments (a ++ '/' :: b) = segments a ++ segments b := by
  induction a with
  | nil => simp [segments]
  | cons c t ih =>
    have e1 : segments (c :: (t ++ '/' :: b)) =
        if c = '/' then [] :: segments (t ++ '/' :: b)
        else match segments (t ++ '/' :: b) with
          | [] => [[c]]
          | seg :: segs => (c :: seg) :: segs := rfl
    have e2 : segments (c :: t) =
        if c = '/' then [] :: segments t
        else match segments t with
          | [] => [[c]]
          | seg :: segs => (c :: seg) :: segs := rfl
    rw [List.cons_append, e1, e2, ih]
    by_cases hc : c = '/'
    · simp [hc]
    · simp only [hc, if_false]
      cases hs : segments t with
      | nil => exact absurd hs (segments_ne_nil t)
      | cons seg segs => simp

theorem segments_of_no_slash (s : List Char) (h : '/' ∉ s) : segments s = [s] := by
  induction s with
  | nil => rfl
  | cons c t ih =>
    simp only [List.mem_cons, not_or] at h
    have hc : c ≠ '/' := fun e => h.1 e.symm
    simp [segments, hc, ih h.2]

theorem not_mem_of_all {p : Char → Bool} {c : Char} (hc : p c = false) {s : List Char}
    (hs : s.all p = true) : c ∉ s := by
  intro hmem
  rw [List.all_eq_true] at hs
  rw [hs c hmem] at hc
  exact Bool.noConfusion hc

theorem slash_not_mem_ext {ext : List Char}
    (he : ext = ['p', 'n', 'g'] ∨ ext = ['j', 'p', 'e', 'g']) : '/' ∉ ext := by
  rcases he with rfl | rfl <;> decide

theorem takeWhile_append_of_all {p : Char → Bool} (a : List Char) (c : Char) (b : List Char)
    (ha : a.all p = true) (hc : p c = false) : (a ++ c :: b).takeWhile p = a := by
  induction a with
  | nil => simp [List.takeWhile, hc]
  | cons d t ih =>
    simp only [List.all_cons, Bool.and_eq_true] at ha
    simp [List.takeWhile, ha.1, ih ha.2]

theorem dropWhile_append_of_all {p : Char → Bool} (a : List Char) (c : Char) (b : List Char)
    (ha : a.all p = true) (hc : p c = false) : (a ++ c :: b).dropWhile p = c :: b := by
  induction a with
  | nil => simp [List.dropWhile, hc]
  | cons d t ih =>
    simp only [List.all_cons, Bool.and_eq_true] at ha
    simp [List.dropWhile, ha.1, ih ha.2]

theorem all_ne_dot_of_digit {s : List Char} (hs : s.all digit = true) :
    s.all (fun c => c != '.') = true := by
  rw [List.all_eq_true] at hs ⊢
  intro c hc
  have hd := hs c hc
  by_cases e : c = '.'
  · subst e; exact absurd hd (by decide)
  · simpa using e

/-- The segments of a path that ends with a tile address are its fields. -/
theorem segments_of_tile (a layer level x y ext : List Char)
    (hf : TileFields layer level x y ext) :
    let path := a ++ '/' :: layer ++ '/' :: level ++ '/' :: x ++ '/' :: y ++ '.' :: ext
    layerSegment path = layer ∧ levelSegment path = level ∧ xSegment path = x ∧
      ySegment path = y ∧ extSegment path = ext := by
  obtain ⟨hl, hv, hx, hy, he⟩ := hf
  have h1 : '/' ∉ layer := not_mem_of_all (by decide) hl.2
  have h2 : '/' ∉ level := not_mem_of_all (by decide) hv.2
  have h3 : '/' ∉ x := not_mem_of_all (by decide) hx.2
  have h4 : '/' ∉ y ++ '.' :: ext := by
    have := not_mem_of_all (p := digit) (c := '/') (by decide) hy.2
    have := slash_not_mem_ext he
    simp only [List.mem_append, List.mem_cons, not_or]
    exact ⟨‹_›, by decide, ‹_›⟩
  have hseg : segments (a ++ '/' :: layer ++ '/' :: level ++ '/' :: x ++ '/' :: y ++ '.' :: ext)
      = segments a ++ [layer, level, x, y ++ '.' :: ext] := by
    have e : a ++ '/' :: layer ++ '/' :: level ++ '/' :: x ++ '/' :: y ++ '.' :: ext
        = (((a ++ '/' :: layer) ++ '/' :: level) ++ '/' :: x) ++ '/' :: (y ++ '.' :: ext) := by
      simp
    rw [e, segments_append_slash, segments_append_slash, segments_append_slash,
      segments_append_slash, segments_of_no_slash _ h1, segments_of_no_slash _ h2,
      segments_of_no_slash _ h3, segments_of_no_slash _ h4]
    simp
  have hdot := all_ne_dot_of_digit hy.2
  simp only [layerSegment, levelSegment, xSegment, ySegment, extSegment, segmentFromLast, hseg,
    List.reverse_append, List.reverse_cons, List.reverse_nil, List.nil_append, List.cons_append,
    List.getD_cons_zero, List.getD_cons_succ, stripExtension, extension]
  refine ⟨trivial, trivial, trivial, ?_, ?_⟩
  · exact takeWhile_append_of_all y '.' ext hdot (by decide)
  · rw [dropWhile_append_of_all y '.' ext hdot (by decide)]
    rfl

/-- On a path of the grammar of `urlRegex` the match is the path followed by
its layer, level, x and y segments and its extension. -/
theorem FindStringSubmatch_of_tile (path : List Char) (h : TileAddressPath path) :
    urlRegex.FindStringSubmatch path = some [path, layerSegment path, levelSegment path,
      xSegment path, ySegment path, extSegment path] ∧
    TileFields (layerSegment path) (levelSegment path) (xSegment path) (ySegment path)
      (extSegment path) := by
  obtain ⟨pre, layer, level, x, y, ext, hf, -, hpath, hfind⟩ := FindStringSubmatch_some path h
  have hs := segments_of_tile ('/' :: pre) layer level x y ext hf
  simp only at hs
  rw [← hpath] at hs
  obtain ⟨e1, e2, e3, e4, e5⟩ := hs
  rw [e1, e2, e3, e4, e5]
  exact ⟨hfind, hf⟩

/-! ## Decoding digits -/

theorem Atoi_of_digits (ds : List Char) (hne : ds ≠ []) (hd : ds.all digit = true) :
    Atoi ds = if decimalValue ds < 2 ^ 63 then some (decimalValue ds : Int) else none := by
  cases ds with
  | nil => exact absurd rfl hne
  | cons c t =>
    have hc : digit c = true := by
      simp only [List.all_cons, Bool.and_eq_true] at hd
      exact hd.1
    have hm : c ≠ '-' := by rintro rfl; exact absurd hc (by decide)
    have hp : c ≠ '+' := by rintro rfl; exact absurd hc (by decide)
    have h1 : (some c == some '-') = false := by simp [hm]
    have h2 : (some c == some '+') = false := by simp [hp]
    simp only [Atoi, List.head?_cons, h1, h2, Bool.or_self, Bool.false_eq_true, if_false,
      List.isEmpty_cons, hd, Bool.not_true, intSize]
    have e63 : (2 : Nat) ^ 63 = 9223372036854775808 := by norm_num
    simp only [e63, ge_iff_le]
    split <;> split <;> first | rfl | omega

theorem decimalValue_foldl_zeros (k n : Nat) (s : List Char) :
    List.foldl (fun n c => 10 * n + (c.toNat - '0'.toNat)) n (List.replicate k '0' ++ s)
      = List.foldl (fun n c => 10 * n + (c.toNat - '0'.toNat)) (10 ^ k * n) s := by
  induction k generalizing n with
  | zero => simp
  | succ k ih =>
    simp only [List.replicate_succ, List.cons_append, List.foldl_cons, ih]
    congr 1
    simp [pow_succ, Nat.mul_assoc]

/-- Leading zeros do not change the value of a digit group. -/
theorem decimalValue_leading_zeros (k : Nat) (s : List Char) :
    decimalValue (List.replicate k '0' ++ s) = decimalValue s := by
  unfold decimalValue
  rw [decimalValue_foldl_zeros]
  simp

/-! ## The handler on the two kinds of path -/

theorem tileAddressPath_iff (path : List Char) :
    TileAddressPath path ↔ invalidURL path = false := by
  constructor
  · intro h
    simp [invalidURL, (FindStringSubmatch_of_tile path h).1]
  · intro h
    by_contra hn
    simp [invalidURL, FindStringSubmatch_none path hn] at h

theorem endsWith_of_tileAddressPath (path : List Char) (h : TileAddressPath path) :
    EndsWithTileAddress path := by
  obtain ⟨pre, layer, level, x, y, ext, hf, -, hpath⟩ := h
  exact ⟨'/' :: pre, layer, level, x, y, ext, hf, hpath⟩

theorem ServeHTTP_of_not_tile {Img Err : Type} (s : server Img Err)
    (pngEncode : Encoder Img Err) (path : List Char) (h : ¬ TileAddressPath path) :
    s.ServeHTTP pngEncode path = ⟨[], ResponseWriter.fresh.NotFound⟩ := by
  simp [server.ServeHTTP, FindStringSubmatch_none path h]

theorem ServeHTTP_of_tile {Img Err : Type} (s : server Img Err)
    (pngEncode : Encoder Img Err) (path : List Char) (h : TileAddressPath path) :
    s.ServeHTTP pngEncode path =
      match s.drawerFactory (layerSegment path) with
      | none => ⟨[.drawerFactory (layerSegment path)], ResponseWriter.fresh.NotFound⟩
      | some drawer =>
        match Atoi (levelSegment path) with
        | none => ⟨[.drawerFactory (layerSegment path)],
            ResponseWriter.fresh.Error "level decoding failed" StatusBadRequest⟩
        | some level =>
          match Atoi (xSegment path) with
          | none => ⟨[.drawerFactory (layerSegment path)],
              ResponseWriter.fresh.Error "x decoding failed" StatusBadRequest⟩
          | some x =>
            match Atoi (ySegment path) with
            | none => ⟨[.drawerFactory (layerSegment path)],
                ResponseWriter.fresh.Error "y decoding failed" StatusBadRequest⟩
            | some y =>
              match drawer.Draw x y level with
              | .error _ =>
                ⟨[.drawerFactory (layerSegment path), .Draw drawer x y level],
                  ResponseWriter.fresh.Error "tile generation failed" StatusInternalServerError⟩
              | .ok img =>
                match (pngEncode img).2 with
                | some _ =>
                  ⟨[.drawerFactory (layerSegment path), .Draw drawer x y level, .pngEncode img],
                    (ResponseWriter.fresh.WriteAll (pngEncode img).1).Error "tile encoding failed"
                      StatusInternalServerError⟩
                | none =>
                  ⟨[.drawerFactory (layerSegment path), .Draw drawer x y level, .pngEncode img],
                    ResponseWriter.fresh.WriteAll (pngEncode img).1⟩ := by
  simp only [server.ServeHTTP, (FindStringSubmatch_of_tile path h).1, List.length_cons,
    List.length_nil, List.getD_cons_succ, List.getD_cons_zero]
  rfl

theorem status_NotFound : ResponseWriter.fresh.NotFound.statusCode = 404 := by decide

theorem status_Error (msg : String) (code : Nat) :
    (ResponseWriter.fresh.Error msg code).statusCode = code := rfl

theorem body_Error (msg : String) (code : Nat) :
    (ResponseWriter.fresh.Error msg code).body = bytesOf (msg ++ "\n") := rfl

theorem contentType_Error (msg : String) (code : Nat) :
    (ResponseWriter.fresh.Error msg code).contentType = some "text/plain; charset=utf-8" := rfl

theorem last_of_endsWith (path : List Char) (h : EndsWithTileAddress path) :
    path.getLast? = some 'g' := by
  obtain ⟨pre, layer, level, x, y, ext, ⟨-, -, -, -, he⟩, rfl⟩ := h
  rcases he with rfl | rfl <;> rw [List.getLast?_append] <;> rfl

theorem Atoi_zeros_in_range (k : Nat) (ds : List Char) (hne : ds ≠ [])
    (hds : ds.all digit = true) (hr : decimalValue ds ≤ 2 ^ 63 - 1) :
    Atoi (List.replicate k '0' ++ ds) = some (decimalValue ds : Int) := by
  have hz : (List.replicate k '0' ++ ds).all digit = true := by
    rw [List.all_append, hds, Bool.and_true, List.all_eq_true]
    intro c hc
    rw [List.eq_of_mem_replicate hc]
    decide
  have hne2 : List.replicate k '0' ++ ds ≠ [] := fun e => hne (List.append_eq_nil.mp e).2
  have e63 : (2 : Nat) ^ 63 - 1 = 9223372036854775807 := by norm_num
  have e63b : (2 : Nat) ^ 63 = 9223372036854775808 := by norm_num
  rw [e63] at hr
  rw [Atoi_of_digits _ hne2 hz, decimalValue_leading_zeros, e63b, if_pos (by omega)]

/-! ## The encoder -/

theorem Write_status (w : ResponseWriter) (bs : List Byte) :
    (w.Write bs).status = some (w.status.getD 200) ∧ (w.Write bs).body = w.body ++ bs ∧
      (w.Write bs).contentType = w.contentType := by
  cases hs : w.status <;> simp [ResponseWriter.Write, ResponseWriter.WriteHeader, hs]

theorem WriteAll_body (chunks : List (List Byte)) :
    ∀ w : ResponseWriter, (w.WriteAll chunks).body = w.body ++ chunks.flatten := by
  induction chunks with
  | nil => intro w; simp [ResponseWriter.WriteAll]
  | cons c cs ih =>
    intro w
    have h := ih (w.Write c)
    simp only [ResponseWriter.WriteAll, List.foldl_cons] at h ⊢
    rw [h, (Write_status w c).2.1]
    simp

theorem WriteAll_status (chunks : List (List Byte)) :
    ∀ w : ResponseWriter, (w.WriteAll chunks).status = w.status ∨
      (w.WriteAll chunks).status = some (w.status.getD 200) := by
  induction chunks with
  | nil => intro w; left; rfl
  | cons c cs ih =>
    intro w
    have h := ih (w.Write c)
    simp only [ResponseWriter.WriteAll, List.foldl_cons] at h ⊢
    rw [(Write_status w c).1] at h
    right
    simpa using h

theorem WriteAll_fresh_status (chunks : List (List Byte)) :
    (ResponseWriter.fresh.WriteAll chunks).status = none ∨
      (ResponseWriter.fresh.WriteAll chunks).status = some 200 :=
  WriteAll_status chunks ResponseWriter.fresh

theorem Error_status (w : ResponseWriter) (msg : String) (code : Nat) :
    (w.Error msg code).status = some (w.status.getD code) := by
  cases hs : w.status <;>
    simp [ResponseWriter.Error, ResponseWriter.Write, ResponseWriter.WriteHeader, hs]

theorem statusCode_WriteAll (chunks : List (List Byte)) :
    (ResponseWriter.fresh.WriteAll chunks).statusCode = 200 := by
  unfold ResponseWriter.statusCode
  rcases WriteAll_fresh_status chunks with h | h <;> rw [h] <;> rfl

theorem statusCode_WriteAll_Error (chunks : List (List Byte)) (msg : String) (code : Nat) :
    ((ResponseWriter.fresh.WriteAll chunks).Error msg code).statusCode = 200 ∨
      ((ResponseWriter.fresh.WriteAll chunks).Error msg code).statusCode = code := by
  unfold ResponseWriter.statusCode
  rw [Error_status]
  rcases WriteAll_fresh_status chunks with h | h <;> rw [h]
  · right; rfl
  · left; rfl

theorem submatch_digits (p : List Char) (m : List (List Char))
    (hm : urlRegex.FindStringSubmatch p = some m) :
    (m.getD 2 []).all digit = true ∧ (m.getD 3 []).all digit = true ∧
      (m.getD 4 []).all digit = true := by
  by_cases ht : TileAddressPath p
  · obtain ⟨hfind, -, hfl, hfx, hfy, -⟩ := FindStringSubmatch_of_tile p ht
    rw [hfind] at hm
    cases hm
    exact ⟨hfl.2, hfx.2, hfy.2⟩
  · rw [FindStringSubmatch_none p ht] at hm
    cases hm

/-! ## Path acceptance -/

/-- C1, as stated, fails: the path `/roads/3/10/7.png` ends with
`/<layer>/<level>/<x>/<y>.<ext>` (nothing precedes the trailing structure),
and the handler takes the branch `Invalid URL` on it. -/
theorem C1_empty_prefix_rejected :
    EndsWithTileAddress "/roads/3/10/7.png".toList ∧
      invalidURL "/roads/3/10/7.png".toList = true :=
  ⟨⟨[], "roads".toList, "3".toList, "10".toList, "7".toList, "png".toList,
    by simp [TileFields]; decide, by decide⟩, by decide⟩

/-- C1, amended: the handler treats a path as a tile address (it does not take
the branch `Invalid URL`) if and only if the path is a slash, followed by any
text without a line feed (possibly empty), followed by
`/<layer>/<level>/<x>/<y>.<ext>` with a layer of one or more word characters,
a level, x and y of one or more digits each and the extension `png` or
`jpeg`. -/
theorem C1_accepted_iff_tileAddressPath (path : List Char) :
    invalidURL path = false ↔
      ∃ pre layer level x y ext,
        ((layer ≠ [] ∧ layer.all wordChar = true) ∧ (level ≠ [] ∧ level.all digit = true) ∧
          (x ≠ [] ∧ x.all digit = true) ∧ (y ≠ [] ∧ y.all digit = true) ∧
          (ext = "png".toList ∨ ext = "jpeg".toList)) ∧
        pre.all (fun c => c != '\n') = true ∧
        path = '/' :: pre ++ '/' :: layer ++ '/' :: level ++ '/' :: x ++ '/' :: y ++ '.' :: ext :=
  (tileAddressPath_iff path).symm

/-! ## Paths outside the grammar -/

/-- C2: on a path that does not match the tile-address grammar (in the wording
of the specification, or as the pattern reads it) the handler answers 404 and
calls neither the drawer factory nor a drawer, so that every factory gets the
same response. -/
theorem C2_not_found_outside_grammar {Img Err : Type} (s : server Img Err)
    (pngEncode : Encoder Img Err) (path : List Char)
    (h : ¬ EndsWithTileAddress path ∨ ¬ TileAddressPath path) :
    (s.ServeHTTP pngEncode path).w.statusCode = 404 ∧
      (s.ServeHTTP pngEncode path).calls = [] ∧
      ∀ s2 : server Img Err, s2.ServeHTTP pngEncode path = s.ServeHTTP pngEncode path := by
  have hn : ¬ TileAddressPath path := by
    rcases h with h | h
    · exact fun ht => h (endsWith_of_tileAddressPath path ht)
    · exact h
  refine ⟨?_, ?_, ?_⟩
  · rw [ServeHTTP_of_not_tile s pngEncode path hn]
    exact status_NotFound
  · rw [ServeHTTP_of_not_tile s pngEncode path hn]
  · intro s2
    rw [ServeHTTP_of_not_tile s pngEncode path hn, ServeHTTP_of_not_tile s2 pngEncode path hn]

/-- The path `/maps/roads/3/10/7.gif` is outside the grammar, and C2 applies to it. -/
theorem C2_witness :
    ¬ EndsWithTileAddress "/maps/roads/3/10/7.gif".toList ∧
      ((⟨fun _ => none⟩ : server Unit Unit).ServeHTTP (fun _ => ([], none))
        "/maps/roads/3/10/7.gif".toList).w.statusCode = 404 :=
  ⟨fun h => absurd (last_of_endsWith _ h) (by decide),
    (C2_not_found_outside_grammar _ _ _
      (Or.inl fun h => absurd (last_of_endsWith _ h) (by decide))).1⟩

/-! ## Unknown layers -/

/-- On a path that `urlRegex` accepts and whose layer the drawer factory has
no drawer for, the only call of the handler is the call of the factory on the
layer segment, and the response is 404. -/
theorem unknown_layer_of_tile {Img Err : Type} (s : server Img Err)
    (pngEncode : Encoder Img Err) (path : List Char)
    (h : TileAddressPath path) (hnil : s.drawerFactory (layerSegment path) = none) :
    (s.ServeHTTP pngEncode path).w.statusCode = 404 ∧
      (s.ServeHTTP pngEncode path).calls = [Call.drawerFactory (layerSegment path)] ∧
      (s.ServeHTTP pngEncode path).calls.filter Call.isDraw = [] := by
  rw [ServeHTTP_of_tile s pngEncode path h, hnil]
  exact ⟨status_NotFound, rfl, rfl⟩

/-- C3, as stated, fails: `/unknown/3/10/7.png` ends with
`/<layer>/<level>/<x>/<y>.<ext>`, its layer segment is `unknown`, the factory
has no drawer for it, and the handler answers 404 without calling the factory
at all. -/
theorem C3_factory_not_called_without_prefix :
    EndsWithTileAddress "/unknown/3/10/7.png".toList ∧
      layerSegment "/unknown/3/10/7.png".toList = "unknown".toList ∧
      ((⟨fun _ => none⟩ : server Unit Unit).ServeHTTP (fun _ => ([], none))
        "/unknown/3/10/7.png".toList).w.statusCode = 404 ∧
      ((⟨fun _ => none⟩ : server Unit Unit).ServeHTTP (fun _ => ([], none))
        "/unknown/3/10/7.png".toList).calls = [] := by
  have hn : ¬ TileAddressPath "/unknown/3/10/7.png".toList :=
    fun ht => absurd ((tileAddressPath_iff _).mp ht) (by decide)
  refine ⟨⟨[], "unknown".toList, "3".toList, "10".toList, "7".toList, "png".toList,
    by simp [TileFields]; decide, by decide⟩, by decide, ?_⟩
  rw [ServeHTTP_of_not_tile _ _ _ hn]
  exact ⟨status_NotFound, rfl⟩

/-- C3, amended: on every path (so on every path that ends with
`/<layer>/<level>/<x>/<y>.<ext>`) whose layer segment, the fourth from last, is
one the drawer factory has no drawer for, the handler answers 404 and calls
`Draw` on no drawer, whatever the level, x and y. When `urlRegex` accepts the
path, the factory is called once, with that very segment; when it does not,
the factory is not called. -/
theorem C3_unknown_layer_not_found {Img Err : Type} (s : server Img Err)
    (pngEncode : Encoder Img Err) (path : List Char)
    (hnil : s.drawerFactory (layerSegment path) = none) :
    (s.ServeHTTP pngEncode path).w.statusCode = 404 ∧
      (s.ServeHTTP pngEncode path).calls.filter Call.isDraw = [] ∧
      (TileAddressPath path →
        (s.ServeHTTP pngEncode path).calls = [Call.drawerFactory (layerSegment path)]) ∧
      (¬ TileAddressPath path → (s.ServeHTTP pngEncode path).calls = []) := by
  by_cases ht : TileAddressPath path
  · obtain ⟨h1, h2, h3⟩ := unknown_layer_of_tile s pngEncode path ht hnil
    exact ⟨h1, h3, fun _ => h2, fun hn => absurd ht hn⟩
  · rw [ServeHTTP_of_not_tile s pngEncode path ht]
    exact ⟨status_NotFound, rfl, fun h => absurd h ht, fun _ => rfl⟩

/-- The path `/maps/unknown/3/10/7.png` with a factory that has no drawer:
the factory is called on `unknown`. -/
theorem C3_witness :
    EndsWithTileAddress "/maps/unknown/3/10/7.png".toList ∧
      layerSegment "/maps/unknown/3/10/7.png".toList = "unknown".toList ∧
      ((⟨fun _ => none⟩ : server Unit Unit).ServeHTTP (fun _ => ([], none))
        "/maps/unknown/3/10/7.png".toList).w.statusCode = 404 ∧
      ((⟨fun _ => none⟩ : server Unit Unit).ServeHTTP (fun _ => ([], none))
        "/maps/unknown/3/10/7.png".toList).calls =
        [Call.drawerFactory (layerSegment "/maps/unknown/3/10/7.png".toList)] :=
  ⟨endsWith_of_tileAddressPath _ ((tileAddressPath_iff _).mpr (by decide)), by decide,
    (C3_unknown_layer_not_found (⟨fun _ => none⟩ : server Unit Unit) (fun _ => ([], none))
      "/maps/unknown/3/10/7.png".toList rfl).1,
    (C3_unknown_layer_not_found (⟨fun _ => none⟩ : server Unit Unit) (fun _ => ([], none))
      "/maps/unknown/3/10/7.png".toList rfl).2.2.1 ((tileAddressPath_iff _).mpr (by decide))⟩

/-! ## Decode failures -/

/-- On a path that `urlRegex` accepts, whose layer the drawer factory resolves
to a drawer and whose level, x or y cannot be decoded as an integer, the
handler answers 400 with a plain-text body that names a field whose decoding
failed. -/
theorem decode_failure_of_tile {Img Err : Type} (s : server Img Err)
    (pngEncode : Encoder Img Err) (path : List Char) (d : Drawer Img Err)
    (h : TileAddressPath path) (hd : s.drawerFactory (layerSegment path) = some d)
    (hfail : Atoi (levelSegment path) = none ∨ Atoi (xSegment path) = none ∨
      Atoi (ySegment path) = none) :
    (s.ServeHTTP pngEncode path).w.statusCode = 400 ∧
      (s.ServeHTTP pngEncode path).w.contentType = some "text/plain; charset=utf-8" ∧
      ((Atoi (levelSegment path) = none ∧
          (s.ServeHTTP pngEncode path).w.body = bytesOf "level decoding failed\n") ∨
        (Atoi (xSegment path) = none ∧
          (s.ServeHTTP pngEncode path).w.body = bytesOf "x decoding failed\n") ∨
        (Atoi (ySegment path) = none ∧
          (s.ServeHTTP pngEncode path).w.body = bytesOf "y decoding failed\n")) := by
  rw [ServeHTTP_of_tile s pngEncode path h, hd]
  cases hl : Atoi (levelSegment path) with
  | none => exact ⟨rfl, rfl, Or.inl ⟨rfl, rfl⟩⟩
  | some level =>
    cases hx : Atoi (xSegment path) with
    | none => exact ⟨rfl, rfl, Or.inr (Or.inl ⟨rfl, rfl⟩)⟩
    | some x =>
      cases hy : Atoi (ySegment path) with
      | none => exact ⟨rfl, rfl, Or.inr (Or.inr ⟨rfl, rfl⟩)⟩
      | some y =>
        rw [hl, hx, hy] at hfail
        simp at hfail

/-- C4, as stated, fails at two inputs whose level cannot be decoded. On
`/maps/roads/99999999999999999999/1/1.png` with a factory that has no drawer
for `roads` the handler answers 404, not 400. On
`/roads/99999999999999999999/1/1.png`, which ends with
`/<layer>/<level>/<x>/<y>.<ext>`, it answers 404 even with a factory that
knows every layer. -/
theorem C4_unknown_layer_before_decoding :
    (TileAddressPath "/maps/roads/99999999999999999999/1/1.png".toList ∧
      Atoi (levelSegment "/maps/roads/99999999999999999999/1/1.png".toList) = none ∧
      ((⟨fun _ => none⟩ : server Unit Unit).ServeHTTP (fun _ => ([], none))
        "/maps/roads/99999999999999999999/1/1.png".toList).w.statusCode = 404) ∧
    (EndsWithTileAddress "/roads/99999999999999999999/1/1.png".toList ∧
      Atoi (levelSegment "/roads/99999999999999999999/1/1.png".toList) = none ∧
      ((⟨fun _ => some ⟨fun _ _ _ => .ok ()⟩⟩ : server Unit Unit).ServeHTTP
        (fun _ => ([], none)) "/roads/99999999999999999999/1/1.png".toList).w.statusCode
        = 404) :=
  ⟨⟨(tileAddressPath_iff _).mpr (by decide), by decide, by decide⟩,
    ⟨⟨[], "roads".toList, "99999999999999999999".toList, "1".toList, "1".toList, "png".toList,
      by simp [TileFields]; decide, by decide⟩, by decide, by decide⟩⟩

/-- C4, amended: on every path (so on every path that ends with
`/<layer>/<level>/<x>/<y>.<ext>`) whose level, x or y segment cannot be
decoded as an integer: if `urlRegex` accepts the path and the drawer factory
resolves its layer, the handler answers 400 with a plain-text body that names
a field whose decoding failed; if `urlRegex` does not accept the path, or the
factory has no drawer for the layer, it answers 404 with the body of
`http.NotFound`. -/
theorem C4_decode_failure_bad_request {Img Err : Type} (s : server Img Err)
    (pngEncode : Encoder Img Err) (path : List Char)
    (hfail : Atoi (levelSegment path) = none ∨ Atoi (xSegment path) = none ∨
      Atoi (ySegment path) = none) :
    (TileAddressPath path → (s.drawerFactory (layerSegment path)).isSome = true →
      (s.ServeHTTP pngEncode path).w.statusCode = 400 ∧
        (s.ServeHTTP pngEncode path).w.contentType = some "text/plain; charset=utf-8" ∧
        ((Atoi (levelSegment path) = none ∧
            (s.ServeHTTP pngEncode path).w.body = bytesOf "level decoding failed\n") ∨
          (Atoi (xSegment path) = none ∧
            (s.ServeHTTP pngEncode path).w.body = bytesOf "x decoding failed\n") ∨
          (Atoi (ySegment path) = none ∧
            (s.ServeHTTP pngEncode path).w.body = bytesOf "y decoding failed\n"))) ∧
      ((¬ TileAddressPath path ∨ s.drawerFactory (layerSegment path) = none) →
        (s.ServeHTTP pngEncode path).w.statusCode = 404 ∧
          (s.ServeHTTP pngEncode path).w.body = bytesOf "404 page not found\n") := by
  constructor
  · intro ht hsome
    obtain ⟨d, hd⟩ := Option.isSome_iff_exists.mp hsome
    exact decode_failure_of_tile s pngEncode path d ht hd hfail
  · intro hor
    by_cases ht : TileAddressPath path
    · rcases hor with hn | hnil
      · exact absurd ht hn
      · rw [ServeHTTP_of_tile s pngEncode path ht, hnil]
        exact ⟨status_NotFound, rfl⟩
    · rw [ServeHTTP_of_not_tile s pngEncode path ht]
      exact ⟨status_NotFound, rfl⟩

/-- The path `/maps/roads/3/10/99999999999999999999.png` with a factory that
knows every layer: the y field fails to decode and the response is 400. -/
theorem C4_witness :
    EndsWithTileAddress "/maps/roads/3/10/99999999999999999999.png".toList ∧
      Atoi (ySegment "/maps/roads/3/10/99999999999999999999.png".toList) = none ∧
      ((⟨fun _ => some ⟨fun _ _ _ => .ok ()⟩⟩ : server Unit Unit).ServeHTTP
        (fun _ => ([], none)) "/maps/roads/3/10/99999999999999999999.png".toList).w.statusCode
        = 400 :=
  ⟨endsWith_of_tileAddressPath _ ((tileAddressPath_iff _).mpr (by decide)), by decide,
    ((C4_decode_failure_bad_request (⟨fun _ => some ⟨fun _ _ _ => .ok ()⟩⟩ : server Unit Unit)
      (fun _ => ([], none)) "/maps/roads/3/10/99999999999999999999.png".toList
      (Or.inr (Or.inr (by decide)))).1 ((tileAddressPath_iff _).mpr (by decide)) rfl).1⟩

/-! ## The call of `Draw` -/

/-- On a path that `urlRegex` accepts, whose layer resolves to a drawer and
whose three digit groups are within the range of `int`, the handler calls
`Draw` exactly once, on that drawer, with the decimal values of the x, y and
level segments; the three are non-negative, and leading zeros do not change
the value of a digit group. -/
theorem draw_of_tile {Img Err : Type} (s : server Img Err)
    (pngEncode : Encoder Img Err) (path : List Char) (d : Drawer Img Err)
    (h : TileAddressPath path) (hd : s.drawerFactory (layerSegment path) = some d)
    (hlevel : decimalValue (levelSegment path) ≤ 2 ^ 63 - 1)
    (hx : decimalValue (xSegment path) ≤ 2 ^ 63 - 1)
    (hy : decimalValue (ySegment path) ≤ 2 ^ 63 - 1) :
    (s.ServeHTTP pngEncode path).calls.filter Call.isDraw =
        [Call.Draw d (decimalValue (xSegment path)) (decimalValue (ySegment path))
          (decimalValue (levelSegment path))] ∧
      (0 : Int) ≤ decimalValue (xSegment path) ∧ (0 : Int) ≤ decimalValue (ySegment path) ∧
      (0 : Int) ≤ decimalValue (levelSegment path) ∧
      ∀ (k : Nat) (ds : List Char), ds ≠ [] → ds.all digit = true →
        decimalValue (List.replicate k '0' ++ ds) = decimalValue ds ∧
        Atoi (List.replicate k '0' ++ ds) = Atoi ds := by
  obtain ⟨-, hfl, hfx, hfy, -⟩ := (FindStringSubmatch_of_tile path h).2
  have e63 : (2 : Nat) ^ 63 - 1 = 9223372036854775807 := by norm_num
  have e63b : (2 : Nat) ^ 63 = 9223372036854775808 := by norm_num
  rw [e63] at hlevel hx hy
  have al := Atoi_of_digits _ hfl.1 hfl.2
  have ax := Atoi_of_digits _ hfx.1 hfx.2
  have ay := Atoi_of_digits _ hfy.1 hfy.2
  rw [e63b, if_pos (by omega)] at al ax ay
  refine ⟨?_, Int.natCast_nonneg _, Int.natCast_nonneg _, Int.natCast_nonneg _, ?_⟩
  · rw [ServeHTTP_of_tile s pngEncode path h, hd]
    simp only [al, ax, ay]
    cases d.Draw (decimalValue (xSegment path)) (decimalValue (ySegment path))
        (decimalValue (levelSegment path)) with
    | error e => rfl
    | ok img =>
      simp only
      cases (pngEncode img).2 <;> rfl
  · intro k ds hne hds
    have hz : (List.replicate k '0' ++ ds).all digit = true := by
      rw [List.all_append, hds, Bool.and_true, List.all_eq_true]
      intro c hc
      rw [List.eq_of_mem_replicate hc]
      decide
    have hne2 : List.replicate k '0' ++ ds ≠ [] := by
      intro e
      exact hne (List.append_eq_nil.mp e).2
    refine ⟨decimalValue_leading_zeros k ds, ?_⟩
    rw [Atoi_of_digits _ hne2 hz, Atoi_of_digits _ hne hds, decimalValue_leading_zeros]

/-- C5, as stated, fails: `/roads/3/10/7.png` ends with
`/<layer>/<level>/<x>/<y>.<ext>`, the factory resolves every layer, the three
digit groups are 3, 10 and 7, and the handler answers 404 without calling
`Draw`. -/
theorem C5_no_draw_without_prefix :
    EndsWithTileAddress "/roads/3/10/7.png".toList ∧
      decimalValue (levelSegment "/roads/3/10/7.png".toList) = 3 ∧
      decimalValue (xSegment "/roads/3/10/7.png".toList) = 10 ∧
      decimalValue (ySegment "/roads/3/10/7.png".toList) = 7 ∧
      ((⟨fun _ => some ⟨fun _ _ _ => .ok ()⟩⟩ : server Unit Unit).ServeHTTP
        (fun _ => ([], none)) "/roads/3/10/7.png".toList).w.statusCode = 404 ∧
      ((⟨fun _ => some ⟨fun _ _ _ => .ok ()⟩⟩ : server Unit Unit).ServeHTTP
        (fun _ => ([], none)) "/roads/3/10/7.png".toList).calls.filter Call.isDraw = [] := by
  have hn : ¬ TileAddressPath "/roads/3/10/7.png".toList :=
    fun ht => absurd ((tileAddressPath_iff _).mp ht) (by decide)
  refine ⟨⟨[], "roads".toList, "3".toList, "10".toList, "7".toList, "png".toList,
    by simp [TileFields]; decide, by decide⟩, by decide, by decide, by decide, ?_⟩
  rw [ServeHTTP_of_not_tile _ _ _ hn]
  exact ⟨status_NotFound, rfl⟩

/-- C5, amended: on every path (so on every path that ends with
`/<layer>/<level>/<x>/<y>.<ext>`) whose layer resolves to a drawer and whose
three digit groups are within the range of `int`: if `urlRegex` accepts the
path, the handler calls `Draw` exactly once, on that drawer, with x the
decimal value of the second segment from last, y that of the last segment
without its extension and level that of the third segment from last; if
`urlRegex` does not accept the path, the handler answers 404 and does not call
`Draw`. The three values are non-negative, and leading zeros do not change the
value of a digit group. -/
theorem C5_draw_called_with_decoded_fields {Img Err : Type} (s : server Img Err)
    (pngEncode : Encoder Img Err) (path : List Char) (d : Drawer Img Err)
    (hd : s.drawerFactory (layerSegment path) = some d)
    (hlevel : decimalValue (levelSegment path) ≤ 2 ^ 63 - 1)
    (hx : decimalValue (xSegment path) ≤ 2 ^ 63 - 1)
    (hy : decimalValue (ySegment path) ≤ 2 ^ 63 - 1) :
    (TileAddressPath path →
      (s.ServeHTTP pngEncode path).calls.filter Call.isDraw =
        [Call.Draw d (decimalValue (xSegment path)) (decimalValue (ySegment path))
          (decimalValue (levelSegment path))]) ∧
      (¬ TileAddressPath path →
        (s.ServeHTTP pngEncode path).w.statusCode = 404 ∧
          (s.ServeHTTP pngEncode path).calls.filter Call.isDraw = []) ∧
      (0 : Int) ≤ decimalValue (xSegment path) ∧ (0 : Int) ≤ decimalValue (ySegment path) ∧
      (0 : Int) ≤ decimalValue (levelSegment path) ∧
      ∀ (k : Nat) (ds : List Char), ds ≠ [] → ds.all digit = true →
        decimalValue (List.replicate k '0' ++ ds) = decimalValue ds ∧
        Atoi (List.replicate k '0' ++ ds) = Atoi ds := by
  refine ⟨fun ht => (draw_of_tile s pngEncode path d ht hd hlevel hx hy).1, ?_,
    Int.natCast_nonneg _, Int.natCast_nonneg _, Int.natCast_nonneg _, ?_⟩
  · intro hn
    rw [ServeHTTP_of_not_tile s pngEncode path hn]
    exact ⟨status_NotFound, rfl⟩
  · intro k ds hne hds
    refine ⟨decimalValue_leading_zeros k ds, ?_⟩
    by_cases hr : decimalValue ds ≤ 2 ^ 63 - 1
    · rw [Atoi_zeros_in_range k ds hne hds hr]
      have h0 := Atoi_zeros_in_range 0 ds hne hds hr
      simpa using h0.symm
    · have hz : (List.replicate k '0' ++ ds).all digit = true := by
        rw [List.all_append, hds, Bool.and_true, List.all_eq_true]
        intro c hc
        rw [List.eq_of_mem_replicate hc]
        decide
      have hne2 : List.replicate k '0' ++ ds ≠ [] :=
        fun e => hne (List.append_eq_nil.mp e).2
      rw [Atoi_of_digits _ hne2 hz, Atoi_of_digits _ hne hds, decimalValue_leading_zeros]

/-- The path `/maps/roads/03/10/007.png` with a factory that knows every
layer: `Draw` is called once, with x 10, y 7 and level 3. -/
theorem C5_witness :
    EndsWithTileAddress "/maps/roads/03/10/007.png".toList ∧
      decimalValue (xSegment "/maps/roads/03/10/007.png".toList) = 10 ∧
      decimalValue (ySegment "/maps/roads/03/10/007.png".toList) = 7 ∧
      decimalValue (levelSegment "/maps/roads/03/10/007.png".toList) = 3 ∧
      ((⟨fun _ => some ⟨fun _ _ _ => .ok ()⟩⟩ : server Unit Unit).ServeHTTP
        (fun _ => ([], none)) "/maps/roads/03/10/007.png".toList).calls.filter Call.isDraw =
        [Call.Draw ⟨fun _ _ _ => .ok ()⟩
          (decimalValue (xSegment "/maps/roads/03/10/007.png".toList))
          (decimalValue (ySegment "/maps/roads/03/10/007.png".toList))
          (decimalValue (levelSegment "/maps/roads/03/10/007.png".toList))] :=
  ⟨endsWith_of_tileAddressPath _ ((tileAddressPath_iff _).mpr (by decide)),
    by decide, by decide, by decide,
    (C5_draw_called_with_decoded_fields (⟨fun _ => some ⟨fun _ _ _ => .ok ()⟩⟩ : server Unit Unit)
      (fun _ => ([], none)) "/maps/roads/03/10/007.png".toList ⟨fun _ _ _ => .ok ()⟩ rfl
      (by decide) (by decide) (by decide)).1 ((tileAddressPath_iff _).mpr (by decide))⟩

/-! ## The format of the body -/

/-- C6 at `/maps/roads/3/10/7.jpeg`: with a drawer that returns the image
`img` and an encoder that succeeds, the only encoder the handler calls is
`png.Encode`, and the body of the 200 response is what `png.Encode` wrote for
`img`; the extension `jpeg` selects nothing. -/
theorem C6_jpeg_path_served_as_png {Img Err : Type} (img : Img) (png : List (List Byte)) :
    extSegment "/maps/roads/3/10/7.jpeg".toList = "jpeg".toList ∧
      ((⟨fun _ => some ⟨fun _ _ _ => .ok img⟩⟩ : server Img Err).ServeHTTP (fun _ => (png, none))
        "/maps/roads/3/10/7.jpeg".toList).calls =
        [Call.drawerFactory "roads".toList, Call.Draw ⟨fun _ _ _ => .ok img⟩ 10 7 3,
          Call.pngEncode img] ∧
      ((⟨fun _ => some ⟨fun _ _ _ => .ok img⟩⟩ : server Img Err).ServeHTTP (fun _ => (png, none))
        "/maps/roads/3/10/7.jpeg".toList).w.body = png.flatten ∧
      ((⟨fun _ => some ⟨fun _ _ _ => .ok img⟩⟩ : server Img Err).ServeHTTP (fun _ => (png, none))
        "/maps/roads/3/10/7.jpeg".toList).w.statusCode = 200 := by
  have h : TileAddressPath "/maps/roads/3/10/7.jpeg".toList :=
    (tileAddressPath_iff _).mpr (by decide)
  have a1 : Atoi (levelSegment "/maps/roads/3/10/7.jpeg".toList) = some 3 := by decide
  have a2 : Atoi (xSegment "/maps/roads/3/10/7.jpeg".toList) = some 10 := by decide
  have a3 : Atoi (ySegment "/maps/roads/3/10/7.jpeg".toList) = some 7 := by decide
  have a4 : layerSegment "/maps/roads/3/10/7.jpeg".toList = "roads".toList := by decide
  have key : ((⟨fun _ => some ⟨fun _ _ _ => .ok img⟩⟩ : server Img Err).ServeHTTP
      (fun _ => (png, none)) "/maps/roads/3/10/7.jpeg".toList) =
      ⟨[Call.drawerFactory "roads".toList, Call.Draw ⟨fun _ _ _ => .ok img⟩ 10 7 3,
        Call.pngEncode img], ResponseWriter.fresh.WriteAll png⟩ := by
    rw [ServeHTTP_of_tile _ _ _ h]
    simp only [a1, a2, a3, a4]
  rw [key]
  refine ⟨by decide, rfl, ?_, statusCode_WriteAll png⟩
  rw [WriteAll_body]
  rfl

/-! ## Failures of the drawer -/

/-- C7: when `Draw` returns an error, the handler answers 500 with the
plain-text body `tile generation failed`, and the encoder is not called. The
response does not depend on the error: two servers whose drawers fail on the
same request, each with an error of its own, give the same response. -/
theorem C7_draw_error_generic_response {Img Err : Type} (s1 s2 : server Img Err)
    (pngEncode : Encoder Img Err) (path : List Char) (d1 d2 : Drawer Img Err)
    (level x y : Int) (e1 e2 : Err) (h : TileAddressPath path)
    (hd1 : s1.drawerFactory (layerSegment path) = some d1)
    (hd2 : s2.drawerFactory (layerSegment path) = some d2)
    (hlevel : Atoi (levelSegment path) = some level) (hx : Atoi (xSegment path) = some x)
    (hy : Atoi (ySegment path) = some y)
    (he1 : d1.Draw x y level = .error e1) (he2 : d2.Draw x y level = .error e2) :
    (s1.ServeHTTP pngEncode path).w = (s2.ServeHTTP pngEncode path).w ∧
      (s1.ServeHTTP pngEncode path).w.statusCode = 500 ∧
      (s1.ServeHTTP pngEncode path).w.contentType = some "text/plain; charset=utf-8" ∧
      (s1.ServeHTTP pngEncode path).w.body = bytesOf "tile generation failed\n" ∧
      (s1.ServeHTTP pngEncode path).calls.filter Call.isEncode = [] := by
  have key1 : s1.ServeHTTP pngEncode path =
      ⟨[Call.drawerFactory (layerSegment path), Call.Draw d1 x y level],
        ResponseWriter.fresh.Error "tile generation failed" StatusInternalServerError⟩ := by
    rw [ServeHTTP_of_tile s1 pngEncode path h, hd1]
    simp only [hlevel, hx, hy, he1]
  have key2 : s2.ServeHTTP pngEncode path =
      ⟨[Call.drawerFactory (layerSegment path), Call.Draw d2 x y level],
        ResponseWriter.fresh.Error "tile generation failed" StatusInternalServerError⟩ := by
    rw [ServeHTTP_of_tile s2 pngEncode path h, hd2]
    simp only [hlevel, hx, hy, he2]
  rw [key1, key2]
  exact ⟨rfl, rfl, rfl, rfl, rfl⟩

/-- The path `/maps/roads/3/10/7.png` with two drawers that fail with the
errors `1` and `2`. -/
theorem C7_witness :
    ((⟨fun _ => some ⟨fun _ _ _ => .error 1⟩⟩ : server Unit Nat).ServeHTTP (fun _ => ([], none))
        "/maps/roads/3/10/7.png".toList).w =
      ((⟨fun _ => some ⟨fun _ _ _ => .error 2⟩⟩ : server Unit Nat).ServeHTTP (fun _ => ([], none))
        "/maps/roads/3/10/7.png".toList).w :=
  (C7_draw_error_generic_response ⟨fun _ => some ⟨fun _ _ _ => .error 1⟩⟩
    ⟨fun _ => some ⟨fun _ _ _ => .error 2⟩⟩ (fun _ => ([], none)) "/maps/roads/3/10/7.png".toList
    ⟨fun _ _ _ => .error 1⟩ ⟨fun _ _ _ => .error 2⟩ 3 10 7 1 2
    ((tileAddressPath_iff _).mpr (by decide)) rfl rfl (by decide) (by decide) (by decide)
    rfl rfl).1

/-! ## Fields that are not digits -/

/-- C8, as stated, fails: on `/maps/roads/3/abc/7.png`, with a drawer for
every layer, the handler answers 404 with the body of `http.NotFound`. -/
theorem C8_non_digit_x_is_not_found :
    xSegment "/maps/roads/3/abc/7.png".toList = "abc".toList ∧
      ((⟨fun _ => some ⟨fun _ _ _ => .ok ()⟩⟩ : server Unit Unit).ServeHTTP
        (fun _ => ([], none)) "/maps/roads/3/abc/7.png".toList).w.statusCode = 404 ∧
      ((⟨fun _ => some ⟨fun _ _ _ => .ok ()⟩⟩ : server Unit Unit).ServeHTTP
        (fun _ => ([], none)) "/maps/roads/3/abc/7.png".toList).w.body =
        bytesOf "404 page not found\n" := by
  decide

/-- C8, amended: on every path whose x segment (the second from last)
contains a character that is not a digit, the handler answers 404 with the
body of `http.NotFound`, and calls neither the drawer factory nor a drawer. -/
theorem C8_non_digit_x_not_found {Img Err : Type} (s : server Img Err)
    (pngEncode : Encoder Img Err) (path : List Char)
    (hx : ∃ c ∈ xSegment path, digit c = false) :
    (s.ServeHTTP pngEncode path).w.statusCode = 404 ∧
      (s.ServeHTTP pngEncode path).w.body = bytesOf "404 page not found\n" ∧
      (s.ServeHTTP pngEncode path).calls = [] := by
  have hn : ¬ TileAddressPath path := by
    intro ht
    obtain ⟨c, hc, hd⟩ := hx
    have hall := (FindStringSubmatch_of_tile path ht).2.2.2.1.2
    rw [List.all_eq_true] at hall
    rw [hall c hc] at hd
    exact Bool.noConfusion hd
  rw [ServeHTTP_of_not_tile s pngEncode path hn]
  exact ⟨status_NotFound, rfl, rfl⟩

/-- The path `/tiles/roads/3/1x0/7.png`: its x segment holds the letter `x`. -/
theorem C8_witness :
    (∃ c ∈ xSegment "/tiles/roads/3/1x0/7.png".toList, digit c = false) ∧
      ((⟨fun _ => some ⟨fun _ _ _ => .ok ()⟩⟩ : server Unit Unit).ServeHTTP
        (fun _ => ([], none)) "/tiles/roads/3/1x0/7.png".toList).w.statusCode = 404 :=
  ⟨⟨'x', by decide, by decide⟩,
    (C8_non_digit_x_not_found _ _ _ ⟨'x', by decide, by decide⟩).1⟩

/-! ## The reach of the 400 response -/

/-- C9: the handler answers 400 only if the path is of the grammar and the
level, x or y digit group denotes a number greater than the greatest `int`,
`2^63 - 1`. On every path the three sub-matches that the handler passes to
`Atoi` hold digits only, and a digit group within the range, with any number of
leading zeros, decodes to its value. -/
theorem C9_bad_request_only_by_overflow {Img Err : Type} (s : server Img Err)
    (pngEncode : Encoder Img Err) (path : List Char)
    (h : (s.ServeHTTP pngEncode path).w.statusCode = 400) :
    (TileAddressPath path ∧ EndsWithTileAddress path) ∧
      (2 ^ 63 - 1 < decimalValue (levelSegment path) ∨
        2 ^ 63 - 1 < decimalValue (xSegment path) ∨
        2 ^ 63 - 1 < decimalValue (ySegment path)) ∧
      (∀ (p : List Char) (m : List (List Char)), urlRegex.FindStringSubmatch p = some m →
        (m.getD 2 []).all digit = true ∧ (m.getD 3 []).all digit = true ∧
        (m.getD 4 []).all digit = true) ∧
      ∀ (k : Nat) (ds : List Char), ds ≠ [] → ds.all digit = true →
        decimalValue ds ≤ 2 ^ 63 - 1 →
        Atoi (List.replicate k '0' ++ ds) = some (decimalValue ds : Int) := by
  by_cases ht : TileAddressPath path
  · obtain ⟨-, hfl, hfx, hfy, -⟩ := (FindStringSubmatch_of_tile path ht).2
    refine ⟨⟨ht, endsWith_of_tileAddressPath path ht⟩, ?_, submatch_digits, Atoi_zeros_in_range⟩
    by_contra hov
    have e63 : (2 : Nat) ^ 63 - 1 = 9223372036854775807 := by norm_num
    have e63b : (2 : Nat) ^ 63 = 9223372036854775808 := by norm_num
    rw [e63] at hov
    have al := Atoi_of_digits _ hfl.1 hfl.2
    have ax := Atoi_of_digits _ hfx.1 hfx.2
    have ay := Atoi_of_digits _ hfy.1 hfy.2
    rw [e63b, if_pos (by omega)] at al ax ay
    rw [ServeHTTP_of_tile s pngEncode path ht] at h
    cases hf : s.drawerFactory (layerSegment path) with
    | none =>
      rw [hf] at h
      exact absurd (show ResponseWriter.fresh.NotFound.statusCode = 400 from h) (by decide)
    | some d =>
      rw [hf] at h
      simp only [al, ax, ay] at h
      cases hdraw : d.Draw (decimalValue (xSegment path)) (decimalValue (ySegment path))
          (decimalValue (levelSegment path)) with
      | error e =>
        rw [hdraw] at h
        exact absurd (show (ResponseWriter.fresh.Error "tile generation failed"
          StatusInternalServerError).statusCode = 400 from h) (by decide)
      | ok img =>
        rw [hdraw] at h
        simp only at h
        cases henc : (pngEncode img).2 with
        | none =>
          rw [henc] at h
          simp only at h
          rw [statusCode_WriteAll] at h
          exact absurd h (by decide)
        | some e =>
          rw [henc] at h
          simp only at h
          rcases statusCode_WriteAll_Error (pngEncode img).1 "tile encoding failed"
            StatusInternalServerError with h2 | h2
          · rw [h2] at h
            exact absurd h (by decide)
          · rw [h2] at h
            exact absurd h (by decide)
  · rw [ServeHTTP_of_not_tile s pngEncode path ht] at h
    exact absurd (show ResponseWriter.fresh.NotFound.statusCode = 400 from h) (by decide)

/-- The path `/maps/roads/3/9223372036854775808/7.png`, whose x is `2^63`,
with a factory that knows every layer: the response is 400. -/
theorem C9_witness :
    ((⟨fun _ => some ⟨fun _ _ _ => .ok ()⟩⟩ : server Unit Unit).ServeHTTP
        (fun _ => ([], none)) "/maps/roads/3/9223372036854775808/7.png".toList).w.statusCode
        = 400 ∧
      (2 ^ 63 - 1 < decimalValue (levelSegment "/maps/roads/3/9223372036854775808/7.png".toList) ∨
        2 ^ 63 - 1 < decimalValue (xSegment "/maps/roads/3/9223372036854775808/7.png".toList) ∨
        2 ^ 63 - 1 < decimalValue (ySegment "/maps/roads/3/9223372036854775808/7.png".toList)) :=
  ⟨by decide,
    (C9_bad_request_only_by_overflow (⟨fun _ => some ⟨fun _ _ _ => .ok ()⟩⟩ : server Unit Unit)
      (fun _ => ([], none)) "/maps/roads/3/9223372036854775808/7.png".toList (by decide)).2.1⟩

/-! ## The precedence of failures -/

/-- On a path that `urlRegex` accepts one failure is reported, in a fixed
order: an unknown layer gives 404, whether or not the fields decode; with a
known layer, the first of level, x and y that fails to decode gives 400 with
its own body. `Draw` is called at most once, and only when the layer resolved
and the three fields decoded. -/
theorem precedence_of_tile {Img Err : Type} (s : server Img Err)
    (pngEncode : Encoder Img Err) (path : List Char) (h : TileAddressPath path) :
    (s.drawerFactory (layerSegment path) = none →
        (s.ServeHTTP pngEncode path).w.statusCode = 404 ∧
        (s.ServeHTTP pngEncode path).w.body = bytesOf "404 page not found\n") ∧
      ((s.drawerFactory (layerSegment path)).isSome = true →
        Atoi (levelSegment path) = none →
        (s.ServeHTTP pngEncode path).w.statusCode = 400 ∧
        (s.ServeHTTP pngEncode path).w.body = bytesOf "level decoding failed\n") ∧
      ((s.drawerFactory (layerSegment path)).isSome = true →
        (Atoi (levelSegment path)).isSome = true → Atoi (xSegment path) = none →
        (s.ServeHTTP pngEncode path).w.statusCode = 400 ∧
        (s.ServeHTTP pngEncode path).w.body = bytesOf "x decoding failed\n") ∧
      ((s.drawerFactory (layerSegment path)).isSome = true →
        (Atoi (levelSegment path)).isSome = true → (Atoi (xSegment path)).isSome = true →
        Atoi (ySegment path) = none →
        (s.ServeHTTP pngEncode path).w.statusCode = 400 ∧
        (s.ServeHTTP pngEncode path).w.body = bytesOf "y decoding failed\n") ∧
      ((s.ServeHTTP pngEncode path).calls.filter Call.isDraw).length ≤ 1 ∧
      ((s.ServeHTTP pngEncode path).calls.filter Call.isDraw ≠ [] →
        (s.drawerFactory (layerSegment path)).isSome = true ∧
        (Atoi (levelSegment path)).isSome = true ∧ (Atoi (xSegment path)).isSome = true ∧
        (Atoi (ySegment path)).isSome = true) := by
  rw [ServeHTTP_of_tile s pngEncode path h]
  cases hf : s.drawerFactory (layerSegment path) with
  | none =>
    refine ⟨fun _ => ⟨status_NotFound, rfl⟩, ?_, ?_, ?_, ?_, ?_⟩
    · intro hs; simp at hs
    · intro hs; simp at hs
    · intro hs; simp at hs
    · simp [Call.isDraw]
    · simp [Call.isDraw]
  | some d =>
    cases hl : Atoi (levelSegment path) with
    | none =>
      refine ⟨fun e => by simp at e, fun _ _ => ⟨rfl, rfl⟩, ?_, ?_, ?_, ?_⟩
      · intro _ hs; simp at hs
      · intro _ hs; simp at hs
      · simp [Call.isDraw]
      · simp [Call.isDraw]
    | some level =>
      cases hx : Atoi (xSegment path) with
      | none =>
        refine ⟨fun e => by simp at e, fun _ e => by simp at e, fun _ _ _ => ⟨rfl, rfl⟩,
          ?_, ?_, ?_⟩
        · intro _ _ hs; simp at hs
        · simp [Call.isDraw]
        · simp [Call.isDraw]
      | some x =>
        cases hy : Atoi (ySegment path) with
        | none =>
          refine ⟨fun e => by simp at e, fun _ e => by simp at e, fun _ _ e => by simp at e,
            fun _ _ _ _ => ⟨rfl, rfl⟩, ?_, ?_⟩
          · simp [Call.isDraw]
          · simp [Call.isDraw]
        | some y =>
          refine ⟨fun e => by simp at e, fun _ e => by simp at e, fun _ _ e => by simp at e,
            fun _ _ _ e => by simp at e, ?_, fun _ => ⟨rfl, rfl, rfl, rfl⟩⟩
          simp only
          cases d.Draw x y level with
          | error e => simp [Call.isDraw]
          | ok img =>
            simp only
            cases (pngEncode img).2 <;> simp [Call.isDraw]

/-- C10, as stated, fails: `/roads/99999999999999999999/1/1.png` ends with
`/<layer>/<level>/<x>/<y>.<ext>`, the factory resolves every layer and the
level cannot be decoded, yet the response is 404 with the body of
`http.NotFound`, not the 400 of a decode failure. -/
theorem C10_no_decode_failure_without_prefix :
    EndsWithTileAddress "/roads/99999999999999999999/1/1.png".toList ∧
      Atoi (levelSegment "/roads/99999999999999999999/1/1.png".toList) = none ∧
      ((⟨fun _ => some ⟨fun _ _ _ => .ok ()⟩⟩ : server Unit Unit).ServeHTTP
        (fun _ => ([], none)) "/roads/99999999999999999999/1/1.png".toList).w.statusCode
        = 404 ∧
      ((⟨fun _ => some ⟨fun _ _ _ => .ok ()⟩⟩ : server Unit Unit).ServeHTTP
        (fun _ => ([], none)) "/roads/99999999999999999999/1/1.png".toList).w.body
        = bytesOf "404 page not found\n" :=
  ⟨⟨[], "roads".toList, "99999999999999999999".toList, "1".toList, "1".toList, "png".toList,
    by simp [TileFields]; decide, by decide⟩, by decide, by decide, by decide⟩

/-- C10, amended: on every path (so on every path that ends with
`/<layer>/<level>/<x>/<y>.<ext>`) exactly one failure is reported, in a fixed
order. A path that `urlRegex` does not accept gives 404 before anything else,
with no call. On a path that it accepts, an unknown layer gives 404 whether or
not the fields decode; with a known layer, the first of level, x and y that
fails to decode gives 400 with the body `level decoding failed`,
`x decoding failed` or `y decoding failed`. `Draw` is called at most once, and
only when `urlRegex` accepted the path, the layer resolved and the three
fields decoded. -/
theorem C10_failure_precedence {Img Err : Type} (s : server Img Err)
    (pngEncode : Encoder Img Err) (path : List Char) :
    (¬ TileAddressPath path →
        (s.ServeHTTP pngEncode path).w.statusCode = 404 ∧
        (s.ServeHTTP pngEncode path).w.body = bytesOf "404 page not found\n" ∧
        (s.ServeHTTP pngEncode path).calls = []) ∧
      (s.drawerFactory (layerSegment path) = none →
        (s.ServeHTTP pngEncode path).w.statusCode = 404 ∧
        (s.ServeHTTP pngEncode path).w.body = bytesOf "404 page not found\n") ∧
      (TileAddressPath path → (s.drawerFactory (layerSegment path)).isSome = true →
        Atoi (levelSegment path) = none →
        (s.ServeHTTP pngEncode path).w.statusCode = 400 ∧
        (s.ServeHTTP pngEncode path).w.body = bytesOf "level decoding failed\n") ∧
      (TileAddressPath path → (s.drawerFactory (layerSegment path)).isSome = true →
        (Atoi (levelSegment path)).isSome = true → Atoi (xSegment path) = none →
        (s.ServeHTTP pngEncode path).w.statusCode = 400 ∧
        (s.ServeHTTP pngEncode path).w.body = bytesOf "x decoding failed\n") ∧
      (TileAddressPath path → (s.drawerFactory (layerSegment path)).isSome = true →
        (Atoi (levelSegment path)).isSome = true → (Atoi (xSegment path)).isSome = true →
        Atoi (ySegment path) = none →
        (s.ServeHTTP pngEncode path).w.statusCode = 400 ∧
        (s.ServeHTTP pngEncode path).w.body = bytesOf "y decoding failed\n") ∧
      ((s.ServeHTTP pngEncode path).calls.filter Call.isDraw).length ≤ 1 ∧
      ((s.ServeHTTP pngEncode path).calls.filter Call.isDraw ≠ [] →
        TileAddressPath path ∧ (s.drawerFactory (layerSegment path)).isSome = true ∧
        (Atoi (levelSegment path)).isSome = true ∧ (Atoi (xSegment path)).isSome = true ∧
        (Atoi (ySegment path)).isSome = true) := by
  by_cases ht : TileAddressPath path
  · obtain ⟨h1, h2, h3, h4, h5, h6⟩ := precedence_of_tile s pngEncode path ht
    exact ⟨fun hn => absurd ht hn, h1, fun _ => h2, fun _ => h3, fun _ => h4, h5,
      fun hne => ⟨ht, h6 hne⟩⟩
  · rw [ServeHTTP_of_not_tile s pngEncode path ht]
    exact ⟨fun _ => ⟨status_NotFound, rfl, rfl⟩, fun _ => ⟨status_NotFound, rfl⟩,
      fun h => absurd h ht, fun h => absurd h ht, fun h => absurd h ht, Nat.zero_le _,
      fun hne => absurd rfl hne⟩

/-- Three requests to which C10 applies. With no drawer for `roads` and a level
that cannot be decoded the response is 404. With a drawer for every layer:
when level and x both fail to decode the body names the level, and when x and
y both fail to decode the body names x. -/
theorem C10_witness :
    ((⟨fun _ => none⟩ : server Unit Unit).ServeHTTP (fun _ => ([], none))
        "/maps/roads/99999999999999999999/1/1.png".toList).w.statusCode = 404 ∧
      ((⟨fun _ => some ⟨fun _ _ _ => .ok ()⟩⟩ : server Unit Unit).ServeHTTP
        (fun _ => ([], none))
        "/maps/roads/99999999999999999999/99999999999999999999/1.png".toList).w.body
        = bytesOf "level decoding failed\n" ∧
      ((⟨fun _ => some ⟨fun _ _ _ => .ok ()⟩⟩ : server Unit Unit).ServeHTTP
        (fun _ => ([], none))
        "/maps/roads/1/99999999999999999999/99999999999999999999.png".toList).w.body
        = bytesOf "x decoding failed\n" :=
  ⟨((C10_failure_precedence (⟨fun _ => none⟩ : server Unit Unit) (fun _ => ([], none))
      "/maps/roads/99999999999999999999/1/1.png".toList).2.1 rfl).1,
    ((C10_failure_precedence (⟨fun _ => some ⟨fun _ _ _ => .ok ()⟩⟩ : server Unit Unit)
      (fun _ => ([], none))
      "/maps/roads/99999999999999999999/99999999999999999999/1.png".toList).2.2.1
      ((tileAddressPath_iff _).mpr (by decide)) rfl (by decide)).2,
    ((C10_failure_precedence (⟨fun _ => some ⟨fun _ _ _ => .ok ()⟩⟩ : server Unit Unit)
      (fun _ => ([], none))
      "/maps/roads/1/99999999999999999999/99999999999999999999.png".toList).2.2.2.1
      ((tileAddressPath_iff _).mpr (by decide)) rfl (by decide) (by decide)).2⟩

end Varmomapo
